import Mathlib

/-!
Shallow embedding of the club-membership and reading-session core of the
Book-Club backend (`myapp/models.py`, `myapp/views.py`,
`myapp/serializers.py`) together with theorems settling the specification
claims about it.

Conventions used throughout:
* users are identified by numeric ids (`Nat`), clubs carry their `id` field;
* the database state is a pair of lists (`clubs`, `memberships`) mirroring
  the two relational tables the claims touch;
* calendar dates are modelled as day ordinals (`Int`), so subtracting two
  dates yields the day difference exactly as subtraction of Python `date`
  values does in `models.py`;
* timestamps produced by `timezone.now()` are opaque `Nat` values;
* quantities computed with Python true division are modelled in `ℚ`.
-/

/-- Role choices of `Membership.role` (`models.py`, `ROLE_CHOICES`). -/
inductive Role where
  | member
  | moderator
  | admin
  deriving DecidableEq, Repr

/-- The fields of `BookClub` (`models.py` 160-214) that the claims depend
on.  `creator` is the id of the owning user. -/
structure BookClub where
  id : Nat
  name : String
  creator : Nat
  is_private : Bool
  max_members : Nat
  deriving DecidableEq, Repr

/-- One `Membership` row (`models.py` 217-236): the through table of the
`BookClub.members` many-to-many relation.  `book_club` is the club id. -/
structure MembershipRow where
  user : Nat
  book_club : Nat
  role : Role
  is_active : Bool
  deriving DecidableEq, Repr

/-- The persistent store restricted to the two tables the claims touch. -/
structure DB where
  clubs : List BookClub
  memberships : List MembershipRow
  deriving DecidableEq, Repr

/-- The empty database. -/
def DB.empty : DB := ⟨[], []⟩

/-- `BookClub.member_count` (`models.py` 204-206): `self.members.count()`
counts every `Membership` row of the club; the queryset is not filtered on
`is_active`. -/
def BookClub.member_count (db : DB) (club : BookClub) : Nat :=
  (db.memberships.filter (fun m => m.book_club == club.id)).length

/-- The count the spec prescribes for `member_count`: `Membership` rows of
the club with `is_active = true`. -/
def activeMemberCount (db : DB) (clubId : Nat) : Nat :=
  (db.memberships.filter (fun m => m.book_club == clubId && m.is_active)).length

/-- Membership rows of the club that have been soft-deactivated. -/
def inactiveMemberCount (db : DB) (clubId : Nat) : Nat :=
  (db.memberships.filter (fun m => m.book_club == clubId && !m.is_active)).length

/-- The queryset test
`Membership.objects.filter(user=user, book_club=book_club, is_active=True).exists()`
used by `join`, `leave`, `stats` and `invite` in `views.py`. -/
def hasActiveMembership (db : DB) (userId clubId : Nat) : Bool :=
  db.memberships.any (fun m => m.user == userId && m.book_club == clubId && m.is_active)

/-- Existence of any `Membership` row for the pair, active or not: this is
what the storage-level constraint `unique_together = ['user', 'book_club']`
(`models.py` 231-233) checks on insert. -/
def hasMembershipRow (db : DB) (userId clubId : Nat) : Bool :=
  db.memberships.any (fun m => m.user == userId && m.book_club == clubId)

/-- Outcomes of `BookClubViewSet.join` (`views.py` 253-297).
`integrityError` is the database rejecting `Membership.objects.create`
because a row for the same `(user, book_club)` pair already exists; Django
surfaces this as an unhandled `IntegrityError`. -/
inductive JoinResult where
  | alreadyMember
  | atCapacity
  | privateForbidden
  | joined
  | integrityError
  deriving DecidableEq, Repr

/-- `BookClubViewSet.join` (`views.py` 253-297): the three guards in source
order (active membership, capacity against `member_count`, privacy), then
`Membership.objects.create(user=user, book_club=book_club, role='member')`,
which the unique constraint turns into `integrityError` whenever a row for
the pair already exists. -/
def join (db : DB) (club : BookClub) (userId : Nat) : JoinResult × DB :=
  if hasActiveMembership db userId club.id then
    (.alreadyMember, db)
  else if club.max_members ≤ club.member_count db then
    (.atCapacity, db)
  else if club.is_private && !(club.creator == userId) then
    (.privateForbidden, db)
  else if hasMembershipRow db userId club.id then
    (.integrityError, db)
  else
    (.joined, { db with memberships := db.memberships ++ [⟨userId, club.id, .member, true⟩] })

/-- Outcomes of `BookClubViewSet.leave` (`views.py` 299-328). -/
inductive LeaveResult where
  | creatorCannotLeave
  | left
  | notAMember
  deriving DecidableEq, Repr

/-- `BookClubViewSet.leave` (`views.py` 299-328): the creator is rejected
first; otherwise the active membership row, if any, is fetched and saved
back with `is_active = False` (the row is never deleted). -/
def leave (db : DB) (club : BookClub) (userId : Nat) : LeaveResult × DB :=
  if club.creator == userId then
    (.creatorCannotLeave, db)
  else if hasActiveMembership db userId club.id then
    (.left, { db with memberships := db.memberships.map (fun m =>
        if m.user == userId && m.book_club == club.id && m.is_active then
          { m with is_active := false }
        else m) })
  else
    (.notAMember, db)

/-- First write of `BookClubCreateUpdateSerializer.create`
(`serializers.py` 221-232): `super().create(validated_data)` inserts the
`BookClub` row. -/
def insertClub (db : DB) (club : BookClub) : DB :=
  { db with clubs := db.clubs ++ [club] }

/-- Second write of `BookClubCreateUpdateSerializer.create`:
`Membership.objects.create(user=book_club.creator, book_club=book_club,
role='admin')`. -/
def insertCreatorMembership (db : DB) (club : BookClub) : DB :=
  { db with memberships := db.memberships ++ [⟨club.creator, club.id, .admin, true⟩] }

/-- `BookClubCreateUpdateSerializer.create`: the two inserts run in
sequence. -/
def createClub (db : DB) (club : BookClub) : DB :=
  insertCreatorMembership (insertClub db club) club

/-- The database states persisted during one `create` call: after the club
insert and after the membership insert.  No `transaction.atomic` encloses
the two writes anywhere in the code base and `ATOMIC_REQUESTS` is not set
in `settings.py`, so each completed insert persists on its own: if the
second write fails, the first state is the durable outcome. -/
def createClubStates (db : DB) (club : BookClub) : List DB :=
  [insertClub db club, createClub db club]

/-- `BookClubViewSet.get_queryset` (`views.py` 183-206) for an
authenticated user: public clubs, clubs the user created, and clubs whose
id appears among the ids of the user's active memberships. -/
def bookclub_list_queryset (db : DB) (userId : Nat) : List BookClub :=
  db.clubs.filter (fun c =>
    !c.is_private || c.creator == userId ||
      db.memberships.any (fun m => m.user == userId && m.is_active && m.book_club == c.id))

/-- `BookClubSearchView.get_queryset` (`views.py` 397-415) for an
authenticated user: the same three-way disjunction as the list queryset. -/
def bookclub_search_queryset (db : DB) (userId : Nat) : List BookClub :=
  db.clubs.filter (fun c =>
    !c.is_private || c.creator == userId ||
      db.memberships.any (fun m => m.user == userId && m.is_active && m.book_club == c.id))

/-- The visibility predicate as the spec words it: a club is visible to a
user iff it is public, or the user is its creator, or the user holds an
active Membership in it. -/
def visibleSpec (db : DB) (userId : Nat) (c : BookClub) : Prop :=
  c.is_private = false ∨ c.creator = userId ∨
    ∃ m ∈ db.memberships, m.user = userId ∧ m.book_club = c.id ∧ m.is_active = true

instance (db : DB) (userId : Nat) (c : BookClub) : Decidable (visibleSpec db userId c) := by
  unfold visibleSpec
  exact inferInstance

/-- Status choices of `ReadingSession.status` (`models.py`,
`STATUS_CHOICES`). -/
inductive SessionStatus where
  | upcoming
  | current
  | completed
  | cancelled
  deriving DecidableEq, Repr

/-- `ReadingSession.progress_percentage` (`models.py` 272-285), with
`timezone.now().date()` passed in as `today` and dates as day ordinals.
`total_days` and `elapsed_days` are the `.days` of the Python date
differences; the division is Python true division, modelled in `ℚ`. -/
def ReadingSession.progress_percentage (status : SessionStatus)
    (start_date end_date today : Int) : ℚ :=
  if status = .completed then 100
  else if status = .upcoming then 0
  else
    let total_days : Int := end_date - start_date
    let elapsed_days : Int := today - start_date
    if 0 < total_days then
      min 100 (max 0 ((elapsed_days : ℚ) / (total_days : ℚ) * 100))
    else 0

/-- The progress formula as the claim words it: 100 when completed, 0 when
upcoming, otherwise clamp((today − start)/(end − start), 0, 1) × 100, with
the value defined as 0 when the two dates coincide. -/
def progressSpec (status : SessionStatus)
    (start_date end_date today : Int) : ℚ :=
  if status = .completed then 100
  else if status = .upcoming then 0
  else if end_date = start_date then 0
  else
    min 1 (max 0 (((today : ℚ) - (start_date : ℚ)) / ((end_date : ℚ) - (start_date : ℚ)))) * 100

/-- The fields of one `ReadingProgress` row (`models.py` 317-359) that its
`save` override reads and writes. -/
structure ReadingProgressRow where
  current_page : Nat
  is_finished : Bool
  started_at : Option Nat
  finished_at : Option Nat
  deriving DecidableEq, Repr

/-- `ReadingProgress.save` (`models.py` 348-359).  `page_count` is the
linked `Book.page_count` (`none` when unknown) and `now` stands for
`timezone.now()`.  The Python truthiness test `if self.book.page_count:`
is false both for `None` and for `0`. -/
def ReadingProgressRow.save (r : ReadingProgressRow) (page_count : Option Nat)
    (now : Nat) : ReadingProgressRow :=
  let r1 :=
    if 0 < r.current_page ∧ r.started_at = none then
      { r with started_at := some now }
    else r
  if r1.is_finished = true ∧ r1.finished_at = none then
    let r2 := { r1 with finished_at := some now }
    match page_count with
    | some pc => if pc ≠ 0 then { r2 with current_page := pc } else r2
    | none => r2
  else r1

/-- `ReadingProgress.progress_percentage` (`models.py` 342-346): when
`page_count` is present and positive the ratio is capped with
`min(100, ...)`; otherwise the property returns 0. -/
def ReadingProgressRow.progress_percentage (current_page : Nat)
    (page_count : Option Nat) : ℚ :=
  match page_count with
  | some pc => if 0 < pc then min 100 ((current_page : ℚ) / (pc : ℚ) * 100) else 0
  | none => 0

/-- The reading-progress percentage as the claim words it: current_page
divided by page_count, as a percentage. -/
def rpSpec (current_page page_count : Nat) : ℚ :=
  (current_page : ℚ) / (page_count : ℚ) * 100

/-- Sequentially run `join` for each user in `users`, collecting the
individual outcomes and the final state. -/
def runJoins (db : DB) (club : BookClub) : List Nat → List JoinResult × DB
  | [] => ([], db)
  | u :: rest =>
    let r := join db club u
    let rs := runJoins r.2 club rest
    (r.1 :: rs.1, rs.2)

/-! Helper lemmas shared by the claim theorems. -/

/-- Splitting the unfiltered row count of a club into active and inactive
rows. -/
theorem length_filter_club_split (l : List MembershipRow) (cid : Nat) :
    (l.filter (fun m => m.book_club == cid)).length
      = (l.filter (fun m => m.book_club == cid && m.is_active)).length
        + (l.filter (fun m => m.book_club == cid && !m.is_active)).length := by
  induction l with
  | nil => simp
  | cons m t ih =>
    by_cases h : m.book_club = cid
    · cases ha : m.is_active <;>
        simp [List.filter_cons, h, ha] <;> omega
    · simp [List.filter_cons, h, ih]

/-- A pair with no membership row at all has, in particular, no active
membership row. -/
theorem hasActive_of_no_row (db : DB) (u c : Nat)
    (h : hasMembershipRow db u c = false) :
    hasActiveMembership db u c = false := by
  unfold hasMembershipRow at h
  unfold hasActiveMembership
  rw [List.any_eq_false] at h ⊢
  intro m hm
  have := h m hm
  simp only [Bool.and_eq_true, beq_iff_eq] at this ⊢
  exact fun hx => this hx.1

/-- Appending a membership row of the club increments `member_count` by
one. -/
theorem member_count_append_same (db : DB) (club : BookClub) (row : MembershipRow)
    (h : row.book_club = club.id) :
    club.member_count { db with memberships := db.memberships ++ [row] }
      = club.member_count db + 1 := by
  simp [BookClub.member_count, List.filter_append, h]

/-- Appending a row of a different user does not create a row for `u`. -/
theorem hasMembershipRow_append_ne (db : DB) (u c : Nat) (row : MembershipRow)
    (h : row.user ≠ u) :
    hasMembershipRow { db with memberships := db.memberships ++ [row] } u c
      = hasMembershipRow db u c := by
  simp [hasMembershipRow, List.any_append, beq_eq_false_iff_ne.mpr h]

/-- A join attempt by a user with no active membership is rejected on the
capacity guard whenever `member_count` has reached `max_members`. -/
theorem join_at_capacity (db : DB) (club : BookClub) (u : Nat)
    (hact : hasActiveMembership db u club.id = false)
    (hcap : club.max_members ≤ club.member_count db) :
    join db club u = (JoinResult.atCapacity, db) := by
  simp [join, hact, hcap]

/-- A join attempt by a completely fresh user on a public club below
capacity succeeds and appends one member-role row. -/
theorem join_fresh_success (db : DB) (club : BookClub) (u : Nat)
    (hpriv : club.is_private = false)
    (hrow : hasMembershipRow db u club.id = false)
    (hcap : club.member_count db < club.max_members) :
    join db club u =
      (JoinResult.joined,
        { db with memberships := db.memberships ++ [⟨u, club.id, Role.member, true⟩] }) := by
  have hact := hasActive_of_no_row db u club.id hrow
  have hle : ¬ club.max_members ≤ club.member_count db := by omega
  simp [join, hact, hrow, hpriv, hle]

/-- Filling a public club: starting from a state where every user in the
list is fresh and the row count plus the number of attempts overshoots the
capacity by exactly one, every attempt but the last succeeds and the last
is rejected on the capacity guard, leaving the club exactly full. -/
theorem runJoins_fill (users : List Nat) : ∀ (db : DB) (club : BookClub),
    club.is_private = false →
    users ≠ [] →
    users.Nodup →
    (∀ u ∈ users, hasMembershipRow db u club.id = false) →
    club.member_count db + users.length = club.max_members + 1 →
    (runJoins db club users).1
        = List.replicate (users.length - 1) JoinResult.joined ++ [JoinResult.atCapacity] ∧
    club.member_count (runJoins db club users).2 = club.max_members := by
  induction users with
  | nil => intro _ _ _ hne; exact absurd rfl hne
  | cons u rest ih =>
    intro db club hpriv _ hnd hfresh hsum
    by_cases hrest : rest = []
    · subst hrest
      have hcount : club.member_count db = club.max_members := by
        simp at hsum; omega
      have hact := hasActive_of_no_row db u club.id (hfresh u (by simp))
      have hj := join_at_capacity db club u hact (le_of_eq hcount.symm)
      simp [runJoins, hj, hcount]
    · have hlen : 1 ≤ rest.length := by
        cases rest
        · exact absurd rfl hrest
        · simp
      have hcap : club.member_count db < club.max_members := by
        simp [List.length_cons] at hsum; omega
      have hrow := hfresh u (by simp)
      have hj := join_fresh_success db club u hpriv hrow hcap
      have hcount1 :
          club.member_count
              { db with memberships := db.memberships ++ [⟨u, club.id, Role.member, true⟩] }
            = club.member_count db + 1 :=
        member_count_append_same db club _ rfl
      have hfresh1 : ∀ v ∈ rest,
          hasMembershipRow
              { db with memberships := db.memberships ++ [⟨u, club.id, Role.member, true⟩] }
              v club.id = false := by
        intro v hv
        have hvne : (⟨u, club.id, Role.member, true⟩ : MembershipRow).user ≠ v := by
          show u ≠ v
          intro hEq
          exact (List.nodup_cons.mp hnd).1 (by rw [hEq]; exact hv)
        rw [hasMembershipRow_append_ne db v club.id _ hvne]
        exact hfresh v (List.mem_cons_of_mem u hv)
      have hsum1 :
          club.member_count
              { db with memberships := db.memberships ++ [⟨u, club.id, Role.member, true⟩] }
            + rest.length = club.max_members + 1 := by
        rw [hcount1]
        simp [List.length_cons] at hsum
        omega
      obtain ⟨hres, hfin⟩ :=
        ih { db with memberships := db.memberships ++ [⟨u, club.id, Role.member, true⟩] }
          club hpriv hrest (List.Nodup.of_cons hnd) hfresh1 hsum1
      obtain ⟨k, hk⟩ : ∃ k, rest.length = k + 1 := ⟨rest.length - 1, by omega⟩
      refine ⟨?_, by simp [runJoins, hj, hfin]⟩
      simp only [runJoins, hj, hres, List.length_cons, hk]
      simp [List.replicate_succ]

/-! Claim theorems. -/

/-- Claim C1, counterexample: in the state reached by creating a club
(creator user 1), user 2 joining, and user 2 leaving, `member_count` is 2
while only one Membership row has `is_active = true` — the derived count
does not equal the active-row count after a leave. -/
theorem member_count_ne_active_after_leave :
    ¬ (BookClub.member_count
          (leave (join (createClub DB.empty ⟨1, "c", 1, false, 50⟩)
              ⟨1, "c", 1, false, 50⟩ 2).2 ⟨1, "c", 1, false, 50⟩ 2).2
          ⟨1, "c", 1, false, 50⟩
        = activeMemberCount
            (leave (join (createClub DB.empty ⟨1, "c", 1, false, 50⟩)
                ⟨1, "c", 1, false, 50⟩ 2).2 ⟨1, "c", 1, false, 50⟩ 2).2 1) := by
  decide

/-- Claim C1 (amended): `member_count` equals the number of all Membership
rows of the club — active plus soft-deactivated — and therefore agrees
with the active-row count exactly in states with no deactivated row. -/
theorem member_count_eq_active_add_inactive :
    ∀ (db : DB) (club : BookClub),
      club.member_count db
          = activeMemberCount db club.id + inactiveMemberCount db club.id ∧
      (inactiveMemberCount db club.id = 0 →
        club.member_count db = activeMemberCount db club.id) := by
  intro db club
  have h := length_filter_club_split db.memberships club.id
  refine ⟨h, fun h0 => ?_⟩
  unfold inactiveMemberCount at h0
  unfold BookClub.member_count activeMemberCount
  omega

/-- Claim C1 (amended) witness at concrete states: in the leave scenario
`member_count` is the sum of the one active and the one inactive row, and
in the freshly created club, which has no inactive row, it equals the
active count. -/
theorem member_count_eq_active_add_inactive_witness :
    (BookClub.member_count
          (leave (join (createClub DB.empty ⟨1, "c", 1, false, 50⟩)
              ⟨1, "c", 1, false, 50⟩ 2).2 ⟨1, "c", 1, false, 50⟩ 2).2
          ⟨1, "c", 1, false, 50⟩
        = activeMemberCount
            (leave (join (createClub DB.empty ⟨1, "c", 1, false, 50⟩)
                ⟨1, "c", 1, false, 50⟩ 2).2 ⟨1, "c", 1, false, 50⟩ 2).2 1
          + inactiveMemberCount
              (leave (join (createClub DB.empty ⟨1, "c", 1, false, 50⟩)
                  ⟨1, "c", 1, false, 50⟩ 2).2 ⟨1, "c", 1, false, 50⟩ 2).2 1) ∧
    BookClub.member_count (createClub DB.empty ⟨1, "c", 1, false, 50⟩)
        ⟨1, "c", 1, false, 50⟩
      = activeMemberCount (createClub DB.empty ⟨1, "c", 1, false, 50⟩) 1 :=
  ⟨(member_count_eq_active_add_inactive
      (leave (join (createClub DB.empty ⟨1, "c", 1, false, 50⟩)
          ⟨1, "c", 1, false, 50⟩ 2).2 ⟨1, "c", 1, false, 50⟩ 2).2
      ⟨1, "c", 1, false, 50⟩).1,
    (member_count_eq_active_add_inactive (createClub DB.empty ⟨1, "c", 1, false, 50⟩)
      ⟨1, "c", 1, false, 50⟩).2 (by decide)⟩

/-- Claim C2 (code bug): after the non-creator user 2 joins and leaves the
club, a renewed join attempt by user 2 does not succeed: `leave` kept the
row (soft-deactivation) and `Membership.objects.create` therefore violates
the `(user, book_club)` unique constraint, which this embedding models as
the `integrityError` outcome; the state is unchanged. -/
theorem rejoin_after_leave_hits_unique_constraint :
    join (leave (join (createClub DB.empty ⟨1, "c", 1, false, 50⟩)
          ⟨1, "c", 1, false, 50⟩ 2).2 ⟨1, "c", 1, false, 50⟩ 2).2
        ⟨1, "c", 1, false, 50⟩ 2
      = (JoinResult.integrityError,
          (leave (join (createClub DB.empty ⟨1, "c", 1, false, 50⟩)
              ⟨1, "c", 1, false, 50⟩ 2).2 ⟨1, "c", 1, false, 50⟩ 2).2) := by
  decide

/-- Claim C3, counterexample: the state persisted after the club insert
and before the membership insert is one of the durable states of a
(non-transactional) create call, and it contains the club with no
Membership row for its creator at all. -/
theorem club_without_creator_membership_reachable :
    insertClub DB.empty ⟨1, "c", 1, false, 50⟩
        ∈ createClubStates DB.empty ⟨1, "c", 1, false, 50⟩ ∧
    (⟨1, "c", 1, false, 50⟩ : BookClub)
        ∈ (insertClub DB.empty ⟨1, "c", 1, false, 50⟩).clubs ∧
    ((insertClub DB.empty ⟨1, "c", 1, false, 50⟩).memberships.filter
        (fun m => m.user == 1 && m.book_club == 1)).length = 0 := by
  decide

/-- Claim C3 (amended): a completed `create` call does yield the club
together with exactly one active admin Membership for its creator
(provided the club id is fresh), but the two inserts are not wrapped in a
transaction, so the intermediate state containing the club without any
creator membership is also a persisted state of the call. -/
theorem createClub_pair_not_atomic :
    ∀ (db : DB) (club : BookClub),
      (∀ m ∈ db.memberships, m.book_club ≠ club.id) →
      (club ∈ (createClub db club).clubs ∧
        ((createClub db club).memberships.filter
            (fun m => m.user == club.creator && m.book_club == club.id
              && m.role == Role.admin && m.is_active)).length = 1) ∧
      (insertClub db club ∈ createClubStates db club ∧
        ((insertClub db club).memberships.filter
            (fun m => m.user == club.creator && m.book_club == club.id)).length = 0) := by
  intro db club hfresh
  have hnone : ∀ (p : MembershipRow → Bool),
      (∀ m, p m = true → m.book_club = club.id) →
      db.memberships.filter p = [] := by
    intro p hp
    rw [List.filter_eq_nil_iff]
    intro m hm hpm
    exact hfresh m hm (hp m hpm)
  refine ⟨⟨by simp [createClub, insertCreatorMembership, insertClub], ?_⟩, ⟨by simp [createClubStates], ?_⟩⟩
  · rw [show (createClub db club).memberships
        = db.memberships ++ [⟨club.creator, club.id, Role.admin, true⟩] from rfl]
    rw [List.filter_append, hnone _ (fun m hm => by
      simp only [Bool.and_eq_true, beq_iff_eq] at hm
      exact hm.1.1.2)]
    simp
  · rw [show (insertClub db club).memberships = db.memberships from rfl]
    rw [hnone _ (fun m hm => by
      simp only [Bool.and_eq_true, beq_iff_eq] at hm
      exact hm.2)]
    rfl

/-- Claim C3 (amended) witness: the amended statement evaluated on the
empty database and a concrete club. -/
theorem createClub_pair_not_atomic_witness :
    ((⟨1, "c", 1, false, 50⟩ : BookClub)
          ∈ (createClub DB.empty ⟨1, "c", 1, false, 50⟩).clubs ∧
      ((createClub DB.empty ⟨1, "c", 1, false, 50⟩).memberships.filter
          (fun m => m.user == 1 && m.book_club == 1
            && m.role == Role.admin && m.is_active)).length = 1) ∧
    (insertClub DB.empty ⟨1, "c", 1, false, 50⟩
          ∈ createClubStates DB.empty ⟨1, "c", 1, false, 50⟩ ∧
      ((insertClub DB.empty ⟨1, "c", 1, false, 50⟩).memberships.filter
          (fun m => m.user == 1 && m.book_club == 1)).length = 0) :=
  createClub_pair_not_atomic DB.empty ⟨1, "c", 1, false, 50⟩ (by intro m hm; cases hm)

/-- Claim C5: a club appears in the authenticated list queryset exactly
when it is stored and satisfies the spec visibility predicate (public, or
created by the user, or the user holds an active Membership), and the
search queryset applies the very same filter. -/
theorem visibility_filters_list_and_search :
    ∀ (db : DB) (userId : Nat),
      (∀ c, c ∈ bookclub_list_queryset db userId
          ↔ c ∈ db.clubs ∧ visibleSpec db userId c) ∧
      bookclub_list_queryset db userId = bookclub_search_queryset db userId := by
  intro db u
  refine ⟨fun c => ?_, rfl⟩
  rw [bookclub_list_queryset, List.mem_filter]
  constructor
  · rintro ⟨hc, hp⟩
    refine ⟨hc, ?_⟩
    simp only [Bool.or_eq_true, Bool.not_eq_true', beq_iff_eq, List.any_eq_true,
      Bool.and_eq_true] at hp
    unfold visibleSpec
    rcases hp with (h | h) | ⟨m, hm, ⟨h1, h2⟩, h3⟩
    · exact Or.inl h
    · exact Or.inr (Or.inl h)
    · exact Or.inr (Or.inr ⟨m, hm, h1, h3, h2⟩)
  · rintro ⟨hc, hv⟩
    refine ⟨hc, ?_⟩
    simp only [Bool.or_eq_true, Bool.not_eq_true', beq_iff_eq, List.any_eq_true,
      Bool.and_eq_true]
    unfold visibleSpec at hv
    rcases hv with h | h | ⟨m, hm, h1, h2, h3⟩
    · exact Or.inl (Or.inl h)
    · exact Or.inl (Or.inr h)
    · exact Or.inr ⟨m, hm, ⟨h1, h3⟩, h2⟩

/-- Claim C6: `leave` invoked by the creator of the club is rejected by
the first guard with the creator-cannot-leave error and returns the state
unchanged, whatever the rest of the state looks like. -/
theorem leave_creator_always_fails :
    ∀ (db : DB) (club : BookClub) (userId : Nat),
      club.creator = userId →
      leave db club userId = (LeaveResult.creatorCannotLeave, db) := by
  intro db club u h
  simp [leave, h]

/-- Claim C6 witness at a concrete creator and club. -/
theorem leave_creator_always_fails_witness :
    leave (createClub DB.empty ⟨1, "c", 1, false, 50⟩) ⟨1, "c", 1, false, 50⟩ 1
      = (LeaveResult.creatorCannotLeave, createClub DB.empty ⟨1, "c", 1, false, 50⟩) :=
  leave_creator_always_fails (createClub DB.empty ⟨1, "c", 1, false, 50⟩)
    ⟨1, "c", 1, false, 50⟩ 1 rfl

/-- Claim C10: `leave` by an authenticated user who is neither the creator
nor an active member answers with the not-a-member error and leaves every
Membership row (indeed the whole state) unchanged. -/
theorem leave_nonmember_fails_unchanged :
    ∀ (db : DB) (club : BookClub) (userId : Nat),
      club.creator ≠ userId →
      hasActiveMembership db userId club.id = false →
      leave db club userId = (LeaveResult.notAMember, db) := by
  intro db club u h hm
  simp [leave, beq_eq_false_iff_ne.mpr h, hm]

/-- Claim C10 witness: user 2 holds only a deactivated row for the club
and is not the creator; leave reports the not-a-member error and the state
is untouched. -/
theorem leave_nonmember_fails_unchanged_witness :
    leave (leave (join (createClub DB.empty ⟨1, "c", 1, false, 50⟩)
          ⟨1, "c", 1, false, 50⟩ 2).2 ⟨1, "c", 1, false, 50⟩ 2).2
        ⟨1, "c", 1, false, 50⟩ 2
      = (LeaveResult.notAMember,
          (leave (join (createClub DB.empty ⟨1, "c", 1, false, 50⟩)
              ⟨1, "c", 1, false, 50⟩ 2).2 ⟨1, "c", 1, false, 50⟩ 2).2) :=
  leave_nonmember_fails_unchanged
    (leave (join (createClub DB.empty ⟨1, "c", 1, false, 50⟩)
        ⟨1, "c", 1, false, 50⟩ 2).2 ⟨1, "c", 1, false, 50⟩ 2).2
    ⟨1, "c", 1, false, 50⟩ 2 (by decide) (by decide)

/-- Claim C4: a join attempt by a user without an active membership is
rejected on the capacity guard as soon as `member_count` has reached
`max_members`; and filling a freshly created public club of capacity N
with N distinct new users (the creator's automatic admin membership being
row number one) succeeds for the first N − 1 of them and rejects the next
attempt — the (N+1)-th join counting the creator's — at capacity, leaving
`member_count` equal to N. -/
theorem join_capacity_exact_fill :
    (∀ (db : DB) (club : BookClub) (u : Nat),
        hasActiveMembership db u club.id = false →
        club.max_members ≤ club.member_count db →
        join db club u = (JoinResult.atCapacity, db)) ∧
    (∀ (club : BookClub) (users : List Nat),
        club.is_private = false →
        club.creator ∉ users →
        users.Nodup →
        users.length = club.max_members →
        1 ≤ club.max_members →
        (runJoins (createClub DB.empty club) club users).1
            = List.replicate (club.max_members - 1) JoinResult.joined
                ++ [JoinResult.atCapacity] ∧
        club.member_count (runJoins (createClub DB.empty club) club users).2
            = club.max_members) := by
  constructor
  · exact fun db club u h1 h2 => join_at_capacity db club u h1 h2
  · intro club users hpriv hcr hnd hlen hN
    have hne : users ≠ [] := by
      intro hnil
      rw [hnil] at hlen
      simp at hlen
      omega
    have hcount0 : club.member_count (createClub DB.empty club) = 1 := by
      simp [createClub, insertClub, insertCreatorMembership, BookClub.member_count, DB.empty]
    have hfresh : ∀ u ∈ users,
        hasMembershipRow (createClub DB.empty club) u club.id = false := by
      intro u hu
      have hune : club.creator ≠ u := fun hEq => hcr (hEq ▸ hu)
      simp [createClub, insertClub, insertCreatorMembership, hasMembershipRow, DB.empty,
        beq_eq_false_iff_ne.mpr hune]
    have hsum : club.member_count (createClub DB.empty club) + users.length
        = club.max_members + 1 := by
      rw [hcount0, hlen]
      omega
    have := runJoins_fill users (createClub DB.empty club) club hpriv hne hnd hfresh hsum
    rwa [hlen] at this

/-- Claim C4 witness: the §8 scenario with capacity 2 — creator user 1 is
the first membership, user 2 joins successfully, user 3 is rejected at
capacity, and the club ends exactly full. -/
theorem join_capacity_exact_fill_witness :
    (runJoins (createClub DB.empty ⟨1, "c", 1, false, 2⟩) ⟨1, "c", 1, false, 2⟩ [2, 3]).1
        = List.replicate 1 JoinResult.joined ++ [JoinResult.atCapacity] ∧
    BookClub.member_count
        (runJoins (createClub DB.empty ⟨1, "c", 1, false, 2⟩) ⟨1, "c", 1, false, 2⟩ [2, 3]).2
        ⟨1, "c", 1, false, 2⟩ = 2 :=
  join_capacity_exact_fill.2 ⟨1, "c", 1, false, 2⟩ [2, 3] rfl (by decide) (by decide)
    rfl (by decide)

/-- Clamping after scaling by 100 agrees with scaling the unit clamp. -/
theorem clamp_mul_hundred (r : ℚ) :
    min 100 (max 0 (r * 100)) = min 1 (max 0 r) * 100 := by
  rcases le_total r 0 with h | h
  · have h100 : r * 100 ≤ 0 := by nlinarith
    rw [max_eq_left h100, max_eq_left h]
    norm_num
  · rcases le_total 1 r with h1 | h1
    · have h100 : (100 : ℚ) ≤ r * 100 := by nlinarith
      rw [max_eq_right (by nlinarith : (0 : ℚ) ≤ r * 100), max_eq_right h,
        min_eq_left h100, min_eq_left h1]
      norm_num
    · have h0 : (0 : ℚ) ≤ r * 100 := by nlinarith
      have h2 : r * 100 ≤ 100 := by nlinarith
      rw [max_eq_right h0, max_eq_right h, min_eq_right h2, min_eq_right h1]

/-- Claim C7: for any session with `start_date ≤ end_date` the stored
computation agrees with the spec formula (100 when completed, 0 when
upcoming, otherwise the clamped linear interpolation, 0 on a zero-length
interval), and on the concrete dates of the claim — day ordinals with
2024-01-01 ↦ 0, 2024-01-16 ↦ 15, 2024-01-31 ↦ 30 — it yields 50 in the
middle, clamps to 0 before the start, and clamps to 100 after the end. -/
theorem session_progress_matches_spec_formula :
    (∀ (status : SessionStatus) (s e t : Int), s ≤ e →
        ReadingSession.progress_percentage status s e t = progressSpec status s e t) ∧
    ReadingSession.progress_percentage .current 0 30 15 = 50 ∧
    ReadingSession.progress_percentage .current 0 30 (-5) = 0 ∧
    ReadingSession.progress_percentage .current 0 30 40 = 100 ∧
    (∀ s e t : Int, ReadingSession.progress_percentage .completed s e t = 100) ∧
    (∀ s e t : Int, ReadingSession.progress_percentage .upcoming s e t = 0) := by
  refine ⟨?_,
    by
      simp only [ReadingSession.progress_percentage]
      rw [if_neg (by decide), if_neg (by decide)]
      norm_num [min_def, max_def],
    by
      simp only [ReadingSession.progress_percentage]
      rw [if_neg (by decide), if_neg (by decide)]
      norm_num [min_def, max_def],
    by
      simp only [ReadingSession.progress_percentage]
      rw [if_neg (by decide), if_neg (by decide)]
      norm_num [min_def, max_def],
    fun s e t => by simp [ReadingSession.progress_percentage],
    fun s e t => by simp [ReadingSession.progress_percentage]⟩
  intro status s e t h
  cases status with
  | completed => simp [ReadingSession.progress_percentage, progressSpec]
  | upcoming => simp [ReadingSession.progress_percentage, progressSpec]
  | current =>
    rcases lt_or_eq_of_le h with hlt | hEq
    · have htot : (0 : Int) < e - s := by omega
      have hne : ¬ e = s := by omega
      simp only [ReadingSession.progress_percentage, progressSpec, if_pos htot, if_neg hne]
      norm_num
      push_cast
      exact clamp_mul_hundred _
    · subst hEq
      simp [ReadingSession.progress_percentage, progressSpec]
  | cancelled =>
    rcases lt_or_eq_of_le h with hlt | hEq
    · have htot : (0 : Int) < e - s := by omega
      have hne : ¬ e = s := by omega
      simp only [ReadingSession.progress_percentage, progressSpec, if_pos htot, if_neg hne]
      norm_num
      push_cast
      exact clamp_mul_hundred _
    · subst hEq
      simp [ReadingSession.progress_percentage, progressSpec]

/-- Claim C7 witness: the general agreement applied on the concrete claim
dates. -/
theorem session_progress_matches_spec_formula_witness :
    ReadingSession.progress_percentage .current 0 30 15
      = progressSpec .current 0 30 15 :=
  session_progress_matches_spec_formula.1 .current 0 30 15 (by decide)

/-- Claim C8: a save with `is_finished = true` and `finished_at` not yet
stamped, on a book with a known positive page count, forces `current_page`
to the page count and stamps `finished_at` with the current time; and the
stamping is idempotent — a save finding `finished_at` (or `started_at`)
already set leaves it unchanged. -/
theorem reading_progress_save_stamps_idempotently :
    (∀ (r : ReadingProgressRow) (pc now : Nat),
        r.is_finished = true → r.finished_at = none → pc ≠ 0 →
        (r.save (some pc) now).current_page = pc ∧
        (r.save (some pc) now).finished_at = some now) ∧
    (∀ (r : ReadingProgressRow) (pc : Option Nat) (now t : Nat),
        r.finished_at = some t → (r.save pc now).finished_at = some t) ∧
    (∀ (r : ReadingProgressRow) (pc : Option Nat) (now t : Nat),
        r.started_at = some t → (r.save pc now).started_at = some t) := by
  refine ⟨?_, ?_, ?_⟩
  · intro r pc now hfin hnone hpc
    unfold ReadingProgressRow.save
    split_ifs <;> simp_all
  · intro r pc now t hfin
    unfold ReadingProgressRow.save
    cases pc <;> split_ifs <;> simp_all
  · intro r pc now t hst
    unfold ReadingProgressRow.save
    cases pc <;> split_ifs <;> simp_all <;> split_ifs <;> simp_all

/-- Claim C8 witness: a fresh finished record against a 250-page book gets
`current_page = 250` and a non-null `finished_at`. -/
theorem reading_progress_save_stamps_idempotently_witness :
    (ReadingProgressRow.save ⟨0, true, none, none⟩ (some 250) 7).current_page = 250 ∧
    (ReadingProgressRow.save ⟨0, true, none, none⟩ (some 250) 7).finished_at = some 7 :=
  reading_progress_save_stamps_idempotently.1 ⟨0, true, none, none⟩ 250 7 rfl rfl
    (by decide)

/-- Claim C9, counterexample: with a known page count of 250 and
`current_page = 300` the stored property returns 100, not the ratio
300/250 × 100 = 120 — the computation clamps with `min(100, ...)`, so it
is not the plain ratio the claim states. -/
theorem reading_progress_percentage_clamp_ce :
    ReadingProgressRow.progress_percentage 300 (some 250) ≠ rpSpec 300 250 := by
  unfold ReadingProgressRow.progress_percentage rpSpec
  norm_num [min_def]

/-- Claim C9 (amended): when `page_count` is known and positive the
property equals the ratio percentage capped at 100, and when `page_count`
is unknown (or zero) it returns 0 rather than being undefined. -/
theorem reading_progress_percentage_clamped :
    (∀ (cp pc : Nat), 0 < pc →
        ReadingProgressRow.progress_percentage cp (some pc)
          = min 100 (rpSpec cp pc)) ∧
    (∀ cp : Nat, ReadingProgressRow.progress_percentage cp none = 0) ∧
    (∀ cp : Nat, ReadingProgressRow.progress_percentage cp (some 0) = 0) := by
  refine ⟨?_, fun cp => rfl, fun cp => rfl⟩
  intro cp pc hpc
  simp [ReadingProgressRow.progress_percentage, rpSpec, hpc]

/-- Claim C9 (amended) witness: 50 pages of a 200-page book is 25 percent,
below the cap. -/
theorem reading_progress_percentage_clamped_witness :
    ReadingProgressRow.progress_percentage 50 (some 200) = min 100 (rpSpec 50 200) :=
  reading_progress_percentage_clamped.1 50 200 (by decide)
